import Mathlib

/-!
Verification of the rule-evaluation core of the `sunlesssea` tool
(`sunlesssea.py`): quality catalog data, requirement checking, effect
application, pyramid-number increments, action resolution, and the
embedded `[key:value]` reference resolver.

Modelling conventions:
* Python `int` is embedded as `Int` (`Nat` for identifiers and loop counts).
* Python floats (`Quality.difficulty_factor` returns `100.0 / scaler`) are
  idealized as exact rationals `ℚ`.
* Python `dict`s (the raw operator-name → value mappings, the save's
  quality map, an action's outcome map) are embedded as insertion-ordered
  association lists with unique keys; `dict.pop` removes every entry with
  the key, which agrees with the unique-key representation.
* Operator values are embedded as `Int`.  The string-valued "Advanced"
  operator payloads are never inspected by the embedded operations
  (`Requirement.check` bails out before reading them, `Effect.apply`
  no-ops on them, `Requirement._tokenize` carries them opaquely), so an
  integer payload stands in for them without loss.
* In-place mutation of a `SaveQuality` becomes explicit state passing: a
  function takes the old `SQ` record and the save mapping, and returns the
  updated mapping.
-/

namespace SunlessSea

/-- Association-list lookup, mirroring Python `dict.get`: the first (unique)
entry with the key. -/
def assoc {κ α : Type} [BEq κ] (l : List (κ × α)) (k : κ) : Option α :=
  (l.find? (fun p => p.1 == k)).map (·.2)

/-- Association-list removal, mirroring Python `dict.pop(k)` on the
unique-key representation. -/
def dictPop {κ α : Type} [BEq κ] (l : List (κ × α)) (k : κ) : List (κ × α) :=
  l.filter (fun p => !(p.1 == k))

/-- The fields of `Quality` (catalog entry) read by the rule-evaluation
core: `cap`, `category` (2000 flags the Luck quality), `difficultyscaler`,
`usepyramidnumbers`, `pyramidnumberincreaselimit`, plus `id` and `name`. -/
structure Quality where
  id : Nat
  name : String
  cap : Int
  category : Int
  difficultyscaler : Int
  usepyramidnumbers : Bool
  pyramidnumberincreaselimit : Int
deriving Repr, DecidableEq

/-- `Quality.is_luck`: `self.category == 2000`. -/
def Quality.is_luck (q : Quality) : Bool :=
  q.category == 2000

/-!
Python floats are IEEE-754 binary64 values; `fl` below is the exact
round-to-nearest-ties-to-even rounding of a rational to a 53-bit
significand, with an unbounded exponent range.  It agrees with binary64
on the entire finite normal range (exponents `-1022..1023`); only values
that would overflow to infinity or fall into the subnormal range — where
the Python code would error or lose further precision, far outside any
quantity handled here — are idealized.
-/

/-- Round a rational to the nearest integer, ties to even. -/
def rndHalfEven (m : ℚ) : ℤ :=
  if m - ⌊m⌋ < 1/2 then ⌊m⌋
  else if 1/2 < m - ⌊m⌋ then ⌊m⌋ + 1
  else if ⌊m⌋ % 2 = 0 then ⌊m⌋ else ⌊m⌋ + 1

/-- Normalize a positive rational into `[1, 2)`, tracking the binary
exponent: the invariant is `input = a · 2^e`.  Fuel-indexed; each step
halves or doubles, so 2200 steps cover every binary exponent of the
binary64 range (`|e| ≤ 1074`) with a wide margin. -/
def flNorm : Nat → ℚ → ℤ → ℚ × ℤ
  | 0, a, e => (a, e)
  | fuel + 1, a, e =>
    if 2 ≤ a then flNorm fuel (a / 2) (e + 1)
    else if a < 1 then flNorm fuel (a * 2) (e - 1)
    else (a, e)

/-- Round a rational to the binary64 grid: write `|q| = a · 2^e` with
`a ∈ [1, 2)`, round the 53-bit significand `a · 2^52` to the nearest
integer (ties to even), and reattach exponent and sign. -/
def fl (q : ℚ) : ℚ :=
  if q = 0 then 0
  else
    (if q < 0 then -1 else 1) *
      (rndHalfEven ((flNorm 2200 |q| 0).1 * 2 ^ 52) : ℚ) *
      (2 : ℚ) ^ ((flNorm 2200 |q| 0).2 - 52)

/-- `Quality.difficulty_factor`: the int `0` if the scaler is falsy, else
the float `100.0 / self.difficultyscaler` — the correctly rounded double
quotient of `100.0` by the (exactly converted) scaler. -/
def Quality.difficulty_factor (q : Quality) : ℚ :=
  if q.difficultyscaler == 0 then 0
  else fl (100 / fl (q.difficultyscaler : ℚ))

/-- `Quality.challenge_cap(difficulty)`: returns `difficulty` when both
`difficulty` and the scaler are falsy; `50 - difficulty * scaler` for the
Luck quality; else `int(math.ceil(difficulty * difficulty_factor))` — the
exact ceiling of the correctly rounded double product of the (exactly
converted) difficulty and the factor. -/
def Quality.challenge_cap (q : Quality) (difficulty : Int) : Int :=
  if difficulty == 0 && q.difficultyscaler == 0 then
    difficulty
  else if q.is_luck then
    50 - difficulty * q.difficultyscaler
  else
    ⌈fl (fl (difficulty : ℚ) * q.difficulty_factor)⌉

/-- The mutable numeric state of a `SaveQuality`: `level` (the `Level`
field read/written by the `value` property) and `xp` (the `XP` field,
defaulting to 0). -/
structure SQ where
  level : Int
  xp : Int
deriving Repr, DecidableEq

/-- `SaveQuality.new(qid)`: a fresh entry at level 0; `XP` is left out of
the template, so the `xp` property reads 0. -/
def SQ.new : SQ := ⟨0, 0⟩

/-- The `SaveQuality.value` setter: clamp to `cap` when a cap is configured
(truthy) and the new value exceeds it; silently drop negative writes. -/
def SQ.setValue (q : Quality) (s : SQ) (v : Int) : SQ :=
  let v := if q.cap != 0 && v > q.cap then q.cap else v
  if v < 0 then s else { s with level := v }

/-- `SaveQuality.pyramid_limit`:
`min(value, pyramidnumberincreaselimit or value)`. -/
def SQ.pyramid_limit (q : Quality) (s : SQ) : Int :=
  let limit := if q.pyramidnumberincreaselimit == 0 then s.level
               else q.pyramidnumberincreaselimit
  min s.level limit

/-- One iteration of the pyramid loop in `SaveQuality.increase_by`:
`xp += 1; if xp > pyramid_limit: value += 1 (through the setter); xp = 0`. -/
def SQ.pyrStep (q : Quality) (s : SQ) : SQ :=
  let s := { s with xp := s.xp + 1 }
  if s.xp > SQ.pyramid_limit q s then
    { SQ.setValue q s (s.level + 1) with xp := 0 }
  else
    s

/-- `n` iterations of the pyramid loop (`for _ in range(n)`). -/
def SQ.pyrIter (q : Quality) : Nat → SQ → SQ
  | 0, s => s
  | n + 1, s => SQ.pyrIter q n (SQ.pyrStep q s)

/-- `SaveQuality.increase_by(value)`: plain `value += n` through the setter
for non-pyramid qualities, else `value.toNat` pyramid steps (Python's
`range(n)` is empty for `n ≤ 0`, as is `Int.toNat`). -/
def SQ.increase_by (q : Quality) (s : SQ) (value : Int) : SQ :=
  if !q.usepyramidnumbers then
    SQ.setValue q s (s.level + value)
  else
    SQ.pyrIter q value.toNat s

/-- `SaveQuality.set_to(value, xp=0)`: write `value` through the setter and
assign `xp` directly (the body's further branches only log warnings). -/
def SQ.set_to (q : Quality) (s : SQ) (value : Int) (xp : Int) : SQ :=
  { SQ.setValue q s value with xp := xp }

/-- A save snapshot: quality id → mutable state, as `Save.qualities`. -/
abbrev Save := List (Nat × SQ)

/-- `save.qualities.get(id)`. -/
def saveGet (s : Save) (id : Nat) : Option SQ :=
  assoc s id

/-- Write back the (mutated in place, in Python) state of the quality with
the given id. -/
def saveSet (s : Save) (id : Nat) (sq : SQ) : Save :=
  s.map (fun p => if p.1 == id then (p.1, sq) else p)

/-- `Save.add_quality(qid)`: append a fresh level-0 entry. -/
def saveAdd (s : Save) (id : Nat) : Save :=
  s ++ [(id, SQ.new)]

/-!
`CheckResult`: enum-like class whose attributes are plain strings;
`LOCKED` is the empty string ("Falsy by design").
-/

namespace CheckResult

def LOCKED : String := ""
def DEFAULT : String := "DEFAULT"
def RARE : String := "RAREDEFAULT"
def FAILURE : String := "Default"
def SUCCESS : String := "Success"
def RARE_FAILURE : String := "RareDefault"
def RARE_SUCCESS : String := "RareSuccess"

end CheckResult

/-- A `Requirement`: an operator-name → value mapping on one quality. -/
structure Requirement where
  quality : Quality
  operator : List (String × Int)

/-- `Requirement._OPS`, in declaration order. -/
def Requirement.OPS : List String :=
  ["DifficultyLevel", "DifficultyAdvanced",
   "MinLevel", "MinAdvanced", "MaxLevel", "MaxAdvanced"]

/-- The loop of `Requirement.check` over `self.operator.items()` (insertion
order): skip names outside `_OPS`; `MinLevel`/`MaxLevel` compare against
the current value and return `LOCKED` on failure; any other recognized
operator logs "operation not implemented" and returns `LOCKED`. -/
def Requirement.checkLoop (sq : SQ) : List (String × Int) → String
  | [] => CheckResult.DEFAULT
  | (op, value) :: rest =>
    if !(Requirement.OPS.contains op) then
      Requirement.checkLoop sq rest
    else if op == "MinLevel" then
      if sq.level < value then CheckResult.LOCKED else Requirement.checkLoop sq rest
    else if op == "MaxLevel" then
      if sq.level > value then CheckResult.LOCKED else Requirement.checkLoop sq rest
    else
      CheckResult.LOCKED

/-- `Requirement.check(save)`: read the save's entry for the quality (or a
fresh `SaveQuality.new` at level 0) and run the operator loop. -/
def Requirement.check (r : Requirement) (save : Save) : String :=
  let sq := (saveGet save r.quality.id).getD SQ.new
  Requirement.checkLoop sq r.operator

/-- An `Effect`: an operator-name → value mapping on one quality. -/
structure Effect where
  quality : Quality
  operator : List (String × Int)

/-- `Effect._OPS`, in declaration order. -/
def Effect.OPS : List String :=
  ["Level", "ChangeByAdvanced", "SetToExactly", "SetToExactlyAdvanced",
   "OnlyIfAtLeast", "OnlyIfNoMoreThan"]

/-- The loop of `Effect.apply` over `reversed(self._OPS)`: absent operators
are skipped; a failing `OnlyIfAtLeast`/`OnlyIfNoMoreThan` guard returns at
once; `SetToExactly` calls `set_to(value)` (default `xp=0`), `Level` calls
`increase_by(value)`; the remaining (`*Advanced`) operators log "operation
not implemented" and no-op. -/
def Effect.applyLoop (q : Quality) (opdict : List (String × Int)) :
    List String → SQ → SQ
  | [], sq => sq
  | op :: rest, sq =>
    match assoc opdict op with
    | none => Effect.applyLoop q opdict rest sq
    | some value =>
      if op == "OnlyIfAtLeast" then
        if sq.level < value then sq else Effect.applyLoop q opdict rest sq
      else if op == "OnlyIfNoMoreThan" then
        if sq.level > value then sq else Effect.applyLoop q opdict rest sq
      else if op == "SetToExactly" then
        Effect.applyLoop q opdict rest (SQ.set_to q sq value 0)
      else if op == "Level" then
        Effect.applyLoop q opdict rest (SQ.increase_by q sq value)
      else
        Effect.applyLoop q opdict rest sq

/-- `Effect.apply(save)`: fetch the save's entry for the quality, creating
one at level 0 via `save.add_quality` when absent, then run the operator
loop on it (in-place mutation becomes a write-back). -/
def Effect.apply (e : Effect) (save : Save) : Save :=
  let sq := (saveGet save e.quality.id).getD SQ.new
  let save := if (saveGet save e.quality.id).isSome then save
              else saveAdd save e.quality.id
  saveSet save e.quality.id (Effect.applyLoop e.quality e.operator Effect.OPS.reverse sq)

/-- An `Outcome` branch: its `type` key (e.g. `"RareDefaultEvent"`), its
percentage `chance`, and its ordered effects. -/
structure Outcome where
  otype : String
  chance : Int
  effects : List Effect

/-- `Outcome.apply` (= `BaseEvent._apply`): apply every effect in order. -/
def Outcome.apply (o : Outcome) (save : Save) : Save :=
  o.effects.foldl (fun s e => Effect.apply e s) save

/-- An `Action`: ordered requirements plus the `_outdict` mapping outcome
type keys to branches. -/
structure Action where
  requirements : List Requirement
  outdict : List (String × Outcome)

/-- The loop of `BaseEvent._check`: any falsy (`LOCKED`) result returns
`LOCKED` at once; a `FAILURE` forces the output to `FAILURE`; a `SUCCESS`
upgrades a non-`FAILURE` output; otherwise the output stays. -/
def Action.checkLoop (save : Save) : String → List Requirement → String
  | output, [] => output
  | output, r :: rest =>
    let result := Requirement.check r save
    if result == CheckResult.LOCKED then
      CheckResult.LOCKED
    else if result == CheckResult.FAILURE then
      Action.checkLoop save CheckResult.FAILURE rest
    else if result == CheckResult.SUCCESS && !(output == CheckResult.FAILURE) then
      Action.checkLoop save CheckResult.SUCCESS rest
    else
      Action.checkLoop save output rest

/-- `Action.check` (= `BaseEvent._check`): fold over the requirements
starting from `DEFAULT`. -/
def Action.check (a : Action) (save : Save) : String :=
  Action.checkLoop save CheckResult.DEFAULT a.requirements

/-- Python `str.title()` restricted to the single-word alphabetic strings
produced by `Requirement.check` (`"DEFAULT"`, `"Default"`, `"Success"`):
uppercase the first character, lowercase the rest. -/
def pyTitle (s : String) : String :=
  match s.data with
  | [] => ""
  | c :: cs => ⟨c.toUpper :: cs.map Char.toLower⟩

/-- Python `str.upper()` (ASCII). -/
def pyUpper (s : String) : String :=
  ⟨s.data.map Char.toUpper⟩

/-- Python `str.replace(pat, sub)` on character lists: replace every
(non-overlapping, leftmost) occurrence.  Fuel-indexed (each step consumes
at least one character, so fuel equal to the input length suffices); only
ever used with a non-empty pattern. -/
def pyReplaceAllFuel (pat sub : List Char) : Nat → List Char → List Char
  | 0, cs => cs
  | _ + 1, [] => []
  | fuel + 1, c :: cs =>
    if pat.isPrefixOf (c :: cs) && decide (0 < pat.length) then
      sub ++ pyReplaceAllFuel pat sub fuel ((c :: cs).drop pat.length)
    else
      c :: pyReplaceAllFuel pat sub fuel cs

/-- Python `str.replace(pat, sub)` on strings. -/
def pyReplace (s pat sub : String) : String :=
  ⟨pyReplaceAllFuel pat.data sub.data s.data.length s.data⟩

/-- The body of `Action.do`, one recursive step per iteration of
`for _ in range(repeats)`.  The random source is a stream `rng : Nat → Nat`
indexed by how many times `random.randrange(100)` has been called; a
missing `_outdict[otype]` key (Python `KeyError`) yields `none`.
Per iteration: check requirements (`LOCKED` stops the whole loop), fetch
the `result.title() + "Event"` outcome, replace it by its `Rare` sibling
when one exists and the draw is below its `chance`
(`result = rare.type.replace("Event", "")`), uppercase the label when the
check result was `DEFAULT`, apply the chosen outcome's effects, and append
the label. -/
def Action.doLoop (a : Action) :
    Nat → Save → (Nat → Nat) → Nat → Option (List String × Save)
  | 0, save, _, _ => some ([], save)
  | n + 1, save, rng, i =>
    let result := Action.check a save
    if result == CheckResult.LOCKED then
      some ([], save)
    else
      let otype := pyTitle result ++ "Event"
      match assoc a.outdict otype with
      | none => none
      | some outcome =>
        match assoc a.outdict ("Rare" ++ otype) with
        | none =>
          let result3 := if result == CheckResult.DEFAULT then pyUpper result else result
          (Action.doLoop a n (Outcome.apply outcome save) rng i).map
            (fun p => (result3 :: p.1, p.2))
        | some rare =>
          if (rng i : Int) < rare.chance then
            let result2 := pyReplace rare.otype "Event" ""
            let result3 :=
              if result == CheckResult.DEFAULT then pyUpper result2 else result2
            (Action.doLoop a n (Outcome.apply rare save) rng (i + 1)).map
              (fun p => (result3 :: p.1, p.2))
          else
            let result3 := if result == CheckResult.DEFAULT then pyUpper result else result
            (Action.doLoop a n (Outcome.apply outcome save) rng (i + 1)).map
              (fun p => (result3 :: p.1, p.2))

/-- `Action.do(repeats, save)` with the caller-chosen `output` reduction
left to the caller: the accumulated per-iteration result labels plus the
final save. -/
def Action.do_ (a : Action) (repeats : Nat) (save : Save) (rng : Nat → Nat) :
    Option (List String × Save) :=
  Action.doLoop a repeats save rng 0

/-! Tokenization (`Requirement._tokenize`). -/

/-- `Requirement._Op`: the token kinds. -/
inductive TokKind
  | EQUAL | MIN | MAX | RANGE | LUCK | CHALLENGE | CHALLENGEADV | INVALID
deriving Repr, DecidableEq

/-- The extra `args`/`kwargs` a token may carry: `v1`/`v2` for `RANGE`,
`scaler`/`factor` for `CHALLENGEADV`, the literal name for `INVALID`. -/
inductive TokArgs
  | unit
  | range (v1 v2 : Int)
  | chadv (scaler : Int) (factor : ℚ)
  | invalid (op : String)
deriving Repr, DecidableEq

/-- One tuple appended by the `tokenize` closure: the kind, the (possibly
converted) value, the operator name, `op.startswith('Difficulty')`,
`op.endswith('Advanced')`, and the extra arguments. -/
structure Token where
  kind : TokKind
  value : Int
  op : String
  isDifficulty : Bool
  isAdvanced : Bool
  args : TokArgs
deriving Repr, DecidableEq

/-- Python `str.startswith`, computed structurally on the characters. -/
def pyStartsWith (s pre : String) : Bool :=
  pre.data.isPrefixOf s.data

/-- Python `str.endswith`, computed structurally on the characters. -/
def pyEndsWith (s suf : String) : Bool :=
  suf.data.isSuffixOf s.data

/-- Build one token for operator `op` holding `value`. -/
def mkTok (kind : TokKind) (value : Int) (op : String) (args : TokArgs) : Token :=
  ⟨kind, value, op, pyStartsWith op "Difficulty", pyEndsWith op "Advanced", args⟩

/-- One iteration of `Requirement._tokenize`'s loop over `self._OPS`,
acting on the working copy of the operator dict and the token list:
a `Min*` looks ahead for its `Max*` partner and collapses equal values to
`EQUAL` (popping the partner) or unequal ones to `RANGE`; a surviving
`Max*` emits `MAX`; `DifficultyLevel` converts its value through
`challenge_cap` and emits `LUCK`/`CHALLENGE`; `DifficultyAdvanced` emits
`CHALLENGEADV` with the scaler and factor; anything else emits `INVALID`. -/
def Requirement.tokStep (q : Quality) (st : List (String × Int) × List Token)
    (op : String) : List (String × Int) × List Token :=
  let ops := st.1
  let tokens := st.2
  match assoc ops op with
  | none => st
  | some value =>
    if pyStartsWith op "Min" then
      let maxop := "Max" ++ op.drop 3
      match assoc ops maxop with
      | some valmax =>
        if valmax == value then
          (dictPop ops maxop, tokens ++ [mkTok TokKind.EQUAL value op TokArgs.unit])
        else
          (dictPop ops maxop,
           tokens ++ [mkTok TokKind.RANGE value op (TokArgs.range value valmax)])
      | none => (ops, tokens ++ [mkTok TokKind.MIN value op TokArgs.unit])
    else if pyStartsWith op "Max" then
      (ops, tokens ++ [mkTok TokKind.MAX value op TokArgs.unit])
    else if op == "DifficultyLevel" then
      let value := q.challenge_cap value
      (ops, tokens ++ [mkTok (if q.is_luck then TokKind.LUCK else TokKind.CHALLENGE)
                         value op TokArgs.unit])
    else if op == "DifficultyAdvanced" then
      (ops, tokens ++ [mkTok TokKind.CHALLENGEADV value op
                         (TokArgs.chadv q.difficultyscaler q.difficulty_factor)])
    else
      (ops, tokens ++ [mkTok TokKind.INVALID value op (TokArgs.invalid op)])

/-- `Requirement._tokenize`: walk `self._OPS` in order over a copy of the
operator dict. -/
def Requirement.tokenize (r : Requirement) : List Token :=
  (Requirement.OPS.foldl (Requirement.tokStep r.quality) (r.operator, [])).2

/-!
Reference resolver (`Entity._parse_adv` with the pattern `_re_adv`,
`\[(?P<key>[a-z]+):(?P<value>(?:[^][]+|\[[^][]+])+)]`).  The scanner below
is the exact language of that pattern: a maximal-munch matcher is
equivalent to the backtracking regex here because every repetition is
bounded by a character (`:`, `[`, `]`) excluded from the repeated class.
-/

/-- A character of the `[a-z]+` key class. -/
def isKeyChar (c : Char) : Bool :=
  'a' ≤ c && c ≤ 'z'

/-- A character of the `[^][]+` class: anything but a square bracket. -/
def isPlainChar (c : Char) : Bool :=
  !(c == '[') && !(c == ']')

/-- Greedy `(?:[^][]+|\[[^][]+])+` units: consume bracket-free runs and
one-level-bracketed runs, returning the consumed value and the rest.
Fuel-indexed (each unit consumes at least one character, so fuel equal to
the input length suffices). -/
def valueUnits : Nat → List Char → List Char × List Char
  | 0, cs => ([], cs)
  | fuel + 1, cs =>
    match cs with
    | '[' :: cs2 =>
      let run := cs2.takeWhile isPlainChar
      let rest := cs2.dropWhile isPlainChar
      if run.isEmpty then ([], cs)
      else
        match rest with
        | ']' :: rest2 =>
          let (v, r) := valueUnits fuel rest2
          ('[' :: (run ++ ']' :: v), r)
        | _ => ([], cs)
    | _ =>
      let run := cs.takeWhile isPlainChar
      if run.isEmpty then ([], cs)
      else
        let (v, r) := valueUnits fuel (cs.dropWhile isPlainChar)
        (run ++ v, r)

/-- Try to match `_re_adv` at the head of the input; on success return the
key, the value and the remaining input. -/
def matchAdvAt (cs : List Char) : Option (List Char × List Char × List Char) :=
  match cs with
  | '[' :: rest =>
    let key := rest.takeWhile isKeyChar
    let r1 := rest.dropWhile isKeyChar
    if key.isEmpty then none
    else
      match r1 with
      | ':' :: r2 =>
        let (value, r3) := valueUnits r2.length r2
        if value.isEmpty then none
        else
          match r3 with
          | ']' :: r4 => some (key, value, r4)
          | _ => none
      | _ => none
  | _ => none

/-- `re.finditer(_re_adv, text)`: scan left to right for non-overlapping
matches, resuming after each match.  Fuel-indexed by the input length. -/
def findMatches : Nat → List Char → List (List Char × List Char)
  | 0, _ => []
  | _ + 1, [] => []
  | fuel + 1, c :: cs =>
    match matchAdvAt (c :: cs) with
    | some (k, v, rest) => (k, v) :: findMatches fuel rest
    | none => findMatches fuel cs

/-- All matches of `_re_adv` in a text. -/
def findAdvMatches (cs : List Char) : List (List Char × List Char) :=
  findMatches cs.length cs

/-- Python `str.replace(pat, sub, 1)`: replace the first occurrence. -/
def replaceFirst (pat sub : List Char) : List Char → List Char
  | [] => []
  | c :: cs =>
    if pat.isPrefixOf (c :: cs) then sub ++ (c :: cs).drop pat.length
    else c :: replaceFirst pat sub cs

/-- The caller-supplied templates of `_parse_adv`, as substitution
functions (`format_obj(qfmt, quality, ...)`, `dfmt.format(...)`, ...). -/
structure AdvFormats where
  qfmt : Quality → List Char
  qbfmt : Quality → List Char
  dfmt : List Char → List Char
  noqfmt : List Char → List Char
  qnamefmt : List Char → List Char

/-- Python `str.isdigit` (ASCII digits). -/
def pyIsDigit (cs : List Char) : Bool :=
  !cs.isEmpty && cs.all Char.isDigit

/-- Decimal value of a digit string (Python `int(value)`). -/
def digitsToNat (cs : List Char) : Nat :=
  cs.foldl (fun n c => 10 * n + (c.toNat - '0'.toNat)) 0

/-- `Entity._parse_adv(text, ...)` over a registry `reg`
(= `self.ss.qualities.get`): for each match of `_re_adv` in the *original*
text, compute the substitution — `q`/`qb` with a digit value looks the
quality up (template, or `noqfmt` placeholder when missing), `q` with a
non-digit value uses `qnamefmt` without a lookup, `d` recursively resolves
its value and wraps it in `dfmt`, an unknown key only logs — and replace
the first occurrence of the matched substring, skipping falsy (`None` or
empty) substitutions.  Fuel-indexed: the `d:` recursion descends into a
value at least four characters shorter than its text, so fuel equal to the
initial length suffices. -/
def parse_adv (reg : Nat → Option Quality) (fm : AdvFormats) :
    Nat → List Char → List Char
  | 0, text => text
  | fuel + 1, text =>
    (findAdvMatches text).foldl (fun result kv =>
      let key := kv.1
      let value := kv.2
      let mstr := '[' :: (key ++ ':' :: (value ++ [']']))
      let subst : Option (List Char) :=
        if key == "q".data || key == "qb".data then
          if pyIsDigit value then
            match reg (digitsToNat value) with
            | some q => some (if key == "qb".data then fm.qbfmt q else fm.qfmt q)
            | none => some (fm.noqfmt value)
          else
            some (fm.qnamefmt value)
        else if key == "d".data then
          some (fm.dfmt (parse_adv reg fm fuel value))
        else
          none
      match subst with
      | none => result
      | some [] => result
      | some sub => replaceFirst mstr sub result) text

/-- `_parse_adv` on strings, with fuel set to the text length. -/
def parse_adv_str (reg : Nat → Option Quality) (fm : AdvFormats) (s : String) :
    String :=
  ⟨parse_adv reg fm s.data.length s.data⟩

/-- The default templates of `_parse_adv`, applied literally:
`qfmt="[{name}]"`, `qbfmt="[Base {name}]"`, `dfmt="[1 to {}]"`,
`noqfmt="[Quality({})]"`, `qnamefmt="{{{}}}"` (a brace-wrapped name). -/
def defaultAdvFormats : AdvFormats where
  qfmt q := ("[" ++ q.name ++ "]").data
  qbfmt q := ("[Base " ++ q.name ++ "]").data
  dfmt s := "[1 to ".data ++ s ++ "]".data
  noqfmt v := "[Quality(".data ++ v ++ ")]".data
  qnamefmt v := Char.ofNat 123 :: (v ++ [Char.ofNat 125])

/-! Concrete sample data used to instantiate the theorems below. -/

/-- A standard skill-like quality: scaler 60, no cap, not Luck. -/
def exStd : Quality := ⟨1, "Veils", 0, 0, 60, false, 0⟩

/-- A flag-like quality with no difficulty scaler configured. -/
def exNoScaler : Quality := ⟨2, "Flag", 0, 0, 0, false, 0⟩

/-- A quality with difficulty scaler 3. -/
def exScaler3 : Quality := ⟨3, "Hearts", 0, 0, 3, false, 0⟩

/-- A pyramid-numbers quality with no configured limit and no cap. -/
def exPyrQ : Quality := ⟨7, "Favours", 0, 0, 0, true, 0⟩

/-- A capped quality (cap 5). -/
def exCapQ : Quality := ⟨9, "Supplies", 5, 0, 0, false, 0⟩

/-- A capped pyramid quality (cap 10). -/
def exPyrCapQ : Quality := ⟨11, "Scholar", 10, 0, 0, true, 3⟩

/-- Quality 42, named "Iron". -/
def exIron : Quality := ⟨42, "Iron", 0, 0, 0, false, 0⟩

/-- A registry holding only quality 42. -/
def exReg : Nat → Option Quality :=
  fun i => if i == 42 then some exIron else none

/-- A requirement `Veils ≥ 5`. -/
def exMinReq : Requirement := ⟨exStd, [("MinLevel", 5)]⟩

/-- A requirement holding only a challenge operator. -/
def exChalReq : Requirement := ⟨exStd, [("DifficultyLevel", 10)]⟩

/-- A default outcome branch with no effects. -/
def exDefaultOutcome : Outcome := ⟨"DefaultEvent", 0, []⟩

/-- A rare-default outcome branch with 50% chance and no effects. -/
def exRareOutcome : Outcome := ⟨"RareDefaultEvent", 50, []⟩

/-- An action with no requirements and a Default/RareDefault pair. -/
def exAction : Action :=
  ⟨[], [("DefaultEvent", exDefaultOutcome), ("RareDefaultEvent", exRareOutcome)]⟩

/-- An action gated by `Veils ≥ 5`. -/
def exLockedAction : Action := ⟨[exMinReq], [("DefaultEvent", exDefaultOutcome)]⟩

/-- The amended claim C2 written as a standalone formula, to be compared
with the source's `challenge_cap`: `difficulty` unchanged only when both
`difficulty` and the scaler are zero; `50 − difficulty × scaler` for Luck;
`0` for a non-Luck quality with no scaler (the factor is the int 0); for a
configured scaler, the ceiling of the double-precision (binary64) product
`difficulty × (100.0 / scaler)` — which usually but not always equals the
exact `ceil(difficulty × 100 / scaler)`. -/
def challenge_cap_amended_formula (q : Quality) (difficulty : Int) : Int :=
  if difficulty = 0 ∧ q.difficultyscaler = 0 then difficulty
  else if q.is_luck then 50 - difficulty * q.difficultyscaler
  else if q.difficultyscaler = 0 then 0
  else ⌈fl (fl (difficulty : ℚ) * fl (100 / fl (q.difficultyscaler : ℚ)))⌉

/-! Theorems. -/

/-- Helper: rounding zero gives zero. -/
theorem fl_zero : fl 0 = 0 := by
  simp [fl]

/-- Helper: one halving step of the exponent normalizer. -/
theorem flNorm_half (f : Nat) (a : ℚ) (e : ℤ) (h : 2 ≤ a) :
    flNorm (f + 1) a e = flNorm f (a / 2) (e + 1) := by
  simp [flNorm, h]

/-- Helper: the exponent normalizer stops on `[1, 2)`. -/
theorem flNorm_done (f : Nat) (a : ℚ) (e : ℤ) (h1 : 1 ≤ a) (h2 : a < 2) :
    flNorm (f + 1) a e = (a, e) := by
  simp [flNorm, not_le.mpr h2, not_lt.mpr h1]

/-- 3 is exactly representable. -/
theorem fl_three : fl (3) = 3 := by
  unfold fl
  rw [if_neg (by norm_num), if_neg (by norm_num)]
  have habs : |(3 : ℚ)| = 3 := abs_of_pos (by norm_num)
  rw [habs]
  rw [show (2200:Nat) = 2199+1 from rfl, flNorm_half _ _ _ (by norm_num)]
  rw [show (2199:Nat) = 2198+1 from rfl, flNorm_done _ _ _ (by norm_num) (by norm_num)]
  dsimp only
  have hf : ⌊((3 : ℚ)/2 * 2 ^ 52)⌋ = 6755399441055744 := by
    rw [Int.floor_eq_iff]
    constructor <;> norm_num
  have hrnd : rndHalfEven ((3 : ℚ)/2 * 2 ^ 52) = 6755399441055744 := by
    unfold rndHalfEven
    rw [hf]
    rw [if_pos (by norm_num)]
  rw [hrnd]
  norm_num

/-- 15 is exactly representable. -/
theorem fl_fifteen : fl (15) = 15 := by
  unfold fl
  rw [if_neg (by norm_num), if_neg (by norm_num)]
  have habs : |(15 : ℚ)| = 15 := abs_of_pos (by norm_num)
  rw [habs]
  rw [show (2200:Nat) = 2199+1 from rfl, flNorm_half _ _ _ (by norm_num)]
  rw [show (2199:Nat) = 2198+1 from rfl, flNorm_half _ _ _ (by norm_num)]
  rw [show (2198:Nat) = 2197+1 from rfl, flNorm_half _ _ _ (by norm_num)]
  rw [show (2197:Nat) = 2196+1 from rfl, flNorm_done _ _ _ (by norm_num) (by norm_num)]
  dsimp only
  have hf : ⌊((15 : ℚ)/2/2/2 * 2 ^ 52)⌋ = 8444249301319680 := by
    rw [Int.floor_eq_iff]
    constructor <;> norm_num
  have hrnd : rndHalfEven ((15 : ℚ)/2/2/2 * 2 ^ 52) = 8444249301319680 := by
    unfold rndHalfEven
    rw [hf]
    rw [if_pos (by norm_num)]
  rw [hrnd]
  norm_num

/-- The double `100.0 / 3` rounds up: it exceeds the exact `100/3`. -/
theorem fl_hundred_thirds : fl (100/3) = 4691249611844267 / 140737488355328 := by
  unfold fl
  rw [if_neg (by norm_num), if_neg (by norm_num)]
  have habs : |(100/3 : ℚ)| = 100/3 := abs_of_pos (by norm_num)
  rw [habs]
  rw [show (2200:Nat) = 2199+1 from rfl, flNorm_half _ _ _ (by norm_num)]
  rw [show (2199:Nat) = 2198+1 from rfl, flNorm_half _ _ _ (by norm_num)]
  rw [show (2198:Nat) = 2197+1 from rfl, flNorm_half _ _ _ (by norm_num)]
  rw [show (2197:Nat) = 2196+1 from rfl, flNorm_half _ _ _ (by norm_num)]
  rw [show (2196:Nat) = 2195+1 from rfl, flNorm_half _ _ _ (by norm_num)]
  rw [show (2195:Nat) = 2194+1 from rfl, flNorm_done _ _ _ (by norm_num) (by norm_num)]
  dsimp only
  have hf : ⌊((100/3 : ℚ)/2/2/2/2/2 * 2 ^ 52)⌋ = 4691249611844266 := by
    rw [Int.floor_eq_iff]
    constructor <;> norm_num
  have hrnd : rndHalfEven ((100/3 : ℚ)/2/2/2/2/2 * 2 ^ 52) = 4691249611844267 := by
    unfold rndHalfEven
    rw [hf]
    rw [if_neg (by norm_num), if_pos (by norm_num)]
    norm_num
  rw [hrnd]
  norm_num

/-- The double product `15 * (100.0/3)` is slightly above 500. -/
theorem fl_product : fl (15 * (4691249611844267 / 140737488355328)) = 8796093022208001 / 17592186044416 := by
  unfold fl
  rw [if_neg (by norm_num), if_neg (by norm_num)]
  have habs : |(15 * (4691249611844267 / 140737488355328) : ℚ)| = 15 * (4691249611844267 / 140737488355328) := abs_of_pos (by norm_num)
  rw [habs]
  rw [show (2200:Nat) = 2199+1 from rfl, flNorm_half _ _ _ (by norm_num)]
  rw [show (2199:Nat) = 2198+1 from rfl, flNorm_half _ _ _ (by norm_num)]
  rw [show (2198:Nat) = 2197+1 from rfl, flNorm_half _ _ _ (by norm_num)]
  rw [show (2197:Nat) = 2196+1 from rfl, flNorm_half _ _ _ (by norm_num)]
  rw [show (2196:Nat) = 2195+1 from rfl, flNorm_half _ _ _ (by norm_num)]
  rw [show (2195:Nat) = 2194+1 from rfl, flNorm_half _ _ _ (by norm_num)]
  rw [show (2194:Nat) = 2193+1 from rfl, flNorm_half _ _ _ (by norm_num)]
  rw [show (2193:Nat) = 2192+1 from rfl, flNorm_half _ _ _ (by norm_num)]
  rw [show (2192:Nat) = 2191+1 from rfl, flNorm_done _ _ _ (by norm_num) (by norm_num)]
  dsimp only
  have hf : ⌊((15 * (4691249611844267 / 140737488355328) : ℚ)/2/2/2/2/2/2/2/2 * 2 ^ 52)⌋ = 8796093022208000 := by
    rw [Int.floor_eq_iff]
    constructor <;> norm_num
  have hrnd : rndHalfEven ((15 * (4691249611844267 / 140737488355328) : ℚ)/2/2/2/2/2/2/2/2 * 2 ^ 52) = 8796093022208001 := by
    unfold rndHalfEven
    rw [hf]
    rw [if_neg (by norm_num), if_pos (by norm_num)]
    norm_num
  rw [hrnd]
  norm_num

/-- C2 (counterexample): the claim says `challenge_cap` returns the
difficulty unchanged whenever the quality has no difficulty scaler
configured — but with scaler 0 and difficulty 3 (non-Luck) the code
computes `ceil(3 * 0) = 0`, not 3; and the claim's exact formula
`ceil(difficulty × 100 / scaler)` also fails where float rounding shows:
at scaler 3, difficulty 15 the code computes
`ceil(15 * (100.0/3)) = ceil(500.00000000000006) = 501`, while the exact
`ceil(15 × 100 / 3)` is 500. -/
theorem challenge_cap_counterexample :
    Quality.challenge_cap exNoScaler 3 = 0 ∧
    Quality.challenge_cap exNoScaler 3 ≠ 3 ∧
    Quality.challenge_cap exScaler3 15 = 501 ∧
    (⌈(15 * 100 : ℚ) / 3⌉ : Int) = 500 := by
  refine ⟨?_, ?_, ?_, ?_⟩
  · norm_num [Quality.challenge_cap, Quality.is_luck, Quality.difficulty_factor,
              exNoScaler, fl_zero]
  · norm_num [Quality.challenge_cap, Quality.is_luck, Quality.difficulty_factor,
              exNoScaler, fl_zero]
  · unfold Quality.challenge_cap Quality.difficulty_factor
    norm_num [Quality.is_luck, exScaler3]
    rw [fl_three, fl_fifteen, fl_hundred_thirds, fl_product]
    rw [Int.ceil_eq_iff]
    constructor <;> norm_num
  · norm_num

/-- C2 (amended): `challenge_cap(difficulty)` returns `50 − difficulty ×
scaler` for the Luck quality; it returns `difficulty` unchanged only when
both the difficulty and the scaler are zero; with scaler 0 but a nonzero
difficulty it returns 0 for a non-Luck quality (the factor is the int 0);
and for a configured scaler it returns the ceiling of the
double-precision product `difficulty × (100.0 / scaler)`, which usually
but not always equals the exact `ceil(difficulty × 100 / scaler)`. -/
theorem challenge_cap_amended (q : Quality) (d : Int) :
    q.challenge_cap d = challenge_cap_amended_formula q d := by
  unfold Quality.challenge_cap challenge_cap_amended_formula Quality.difficulty_factor
  by_cases hd : d = 0 <;> by_cases hs : q.difficultyscaler = 0 <;>
    by_cases hl : q.is_luck = true <;>
    simp [hd, hs, hl, fl_zero]

/-- C6: for a Requirement whose only operator is `MinLevel = m`, `check`
returns `LOCKED` iff the save's current value for the quality is below
`m`, and `DEFAULT` otherwise; a quality with no entry in the save is read
through a fresh `SaveQuality.new`, i.e. as value 0. -/
theorem check_minlevel_iff (q : Quality) (m : Int) (save : Save) :
    (Requirement.check ⟨q, [("MinLevel", m)]⟩ save = CheckResult.LOCKED ↔
      ((saveGet save q.id).getD SQ.new).level < m) ∧
    (Requirement.check ⟨q, [("MinLevel", m)]⟩ save = CheckResult.DEFAULT ↔
      ¬ ((saveGet save q.id).getD SQ.new).level < m) ∧
    (Requirement.check ⟨q, [("MinLevel", m)]⟩ [] =
      if 0 < m then CheckResult.LOCKED else CheckResult.DEFAULT) := by
  refine ⟨?_, ?_, ?_⟩
  · by_cases h : ((saveGet save q.id).getD SQ.new).level < m <;>
      simp [Requirement.check, Requirement.checkLoop, Requirement.OPS, h,
            CheckResult.LOCKED, CheckResult.DEFAULT]
  · by_cases h : ((saveGet save q.id).getD SQ.new).level < m <;>
      simp [Requirement.check, Requirement.checkLoop, Requirement.OPS, h,
            CheckResult.LOCKED, CheckResult.DEFAULT]
  · by_cases h : (0 : Int) < m <;>
      simp [Requirement.check, Requirement.checkLoop, Requirement.OPS, h,
            saveGet, assoc, SQ.new, CheckResult.LOCKED, CheckResult.DEFAULT]

/-- Helper: the `Requirement.check` loop returns `LOCKED` as soon as any
entry of the operator dict carries one of the four recognized-but-
unimplemented names, whatever the save value. -/
theorem checkLoop_unsupported (sq : SQ) (l : List (String × Int))
    (h : ∃ p ∈ l, p.1 = "DifficultyLevel" ∨ p.1 = "DifficultyAdvanced" ∨
         p.1 = "MinAdvanced" ∨ p.1 = "MaxAdvanced") :
    Requirement.checkLoop sq l = CheckResult.LOCKED := by
  induction l with
  | nil => simp at h
  | cons hd tl ih =>
    obtain ⟨p, hp, hop⟩ := h
    obtain ⟨op, v⟩ := hd
    rcases List.mem_cons.mp hp with hhd | htl
    · subst hhd
      rcases hop with h1 | h1 | h1 | h1 <;> subst h1 <;>
        simp [Requirement.checkLoop, Requirement.OPS]
    · have htail := ih ⟨p, htl, hop⟩
      simp only [Requirement.checkLoop]
      split_ifs <;> first | rfl | exact htail

/-- C1 (counterexample): the claim says a challenge/luck/advanced operator
is a no-op treated as passing, so `check` is `LOCKED` only when a
`MinLevel`/`MaxLevel` comparison fails; but a requirement holding only
`DifficultyLevel = 10` (no `MinLevel`/`MaxLevel` at all) checks as
`LOCKED`, not `DEFAULT`, even at save value 100. -/
theorem check_challenge_counterexample :
    Requirement.check exChalReq [(1, ⟨100, 0⟩)] = CheckResult.LOCKED ∧
    Requirement.check exChalReq [(1, ⟨100, 0⟩)] ≠ CheckResult.DEFAULT ∧
    assoc exChalReq.operator "MinLevel" = none ∧
    assoc exChalReq.operator "MaxLevel" = none := by
  refine ⟨rfl, by decide, rfl, rfl⟩

/-- C1 (amended): `check` treats the challenge/luck/advanced operators
(`DifficultyLevel`, `DifficultyAdvanced`, `MinAdvanced`, `MaxAdvanced`) as
"not implemented" and fails the requirement: any Requirement containing
one of them returns `LOCKED`, regardless of the save's values. -/
theorem check_unsupported_locks (r : Requirement) (save : Save)
    (h : ∃ p ∈ r.operator, p.1 = "DifficultyLevel" ∨ p.1 = "DifficultyAdvanced" ∨
         p.1 = "MinAdvanced" ∨ p.1 = "MaxAdvanced") :
    Requirement.check r save = CheckResult.LOCKED :=
  checkLoop_unsupported _ _ h

/-- C1 (witness): the amended theorem applied to the concrete challenge
requirement at save value 100. -/
theorem check_unsupported_locks_witness :
    Requirement.check exChalReq [(1, ⟨100, 0⟩)] = CheckResult.LOCKED :=
  check_unsupported_locks exChalReq [(1, ⟨100, 0⟩)]
    ⟨("DifficultyLevel", 10), by decide, Or.inl rfl⟩

/-- C4: when the requirement check yields `LOCKED` on the given save,
`do(action, save, repeats=3)` stops the loop on the first iteration: it
returns an empty result sequence, applies no effect, and returns the save
unchanged. -/
theorem do_locked_returns_empty (a : Action) (save : Save) (rng : Nat → Nat)
    (h : Action.check a save = CheckResult.LOCKED) :
    Action.do_ a 3 save rng = some ([], save) := by
  simp [Action.do_, Action.doLoop, h]

/-- C4 (witness): a `Veils ≥ 5` action on an empty save. -/
theorem do_locked_returns_empty_witness :
    Action.do_ exLockedAction 3 [] (fun _ => 0) = some ([], []) :=
  do_locked_returns_empty exLockedAction [] (fun _ => 0) (by decide)

/-- Helper: iterating the pyramid step one more time is the same as
stepping the result of the previous iterations. -/
theorem pyrIter_succ_comm (q : Quality) (n : Nat) (s : SQ) :
    SQ.pyrIter q (n + 1) s = SQ.pyrStep q (SQ.pyrIter q n s) := by
  induction n generalizing s with
  | zero => rfl
  | succ n ih =>
    show SQ.pyrIter q (n + 1) (SQ.pyrStep q s) = _
    rw [ih]
    rfl

/-- Helper: while the accumulated XP stays at or below the pyramid limit,
each pyramid step only increments XP and the level is untouched. -/
theorem pyrIter_below_limit (q : Quality) (V : Int) (j : Nat)
    (hj : (j : Int) ≤ SQ.pyramid_limit q ⟨V, 0⟩) :
    SQ.pyrIter q j ⟨V, 0⟩ = ⟨V, (j : Int)⟩ := by
  induction j with
  | zero => rfl
  | succ j ih =>
    have hj1 : ((j : Int) + 1) ≤ SQ.pyramid_limit q ⟨V, 0⟩ := by exact_mod_cast hj
    have hj' : (j : Int) ≤ SQ.pyramid_limit q ⟨V, 0⟩ := by omega
    rw [pyrIter_succ_comm, ih hj']
    have hlim : SQ.pyramid_limit q ⟨V, (j : Int) + 1⟩ = SQ.pyramid_limit q ⟨V, 0⟩ := rfl
    simp only [SQ.pyrStep, hlim]
    rw [if_neg (by omega)]
    simp [Int.add_comm]

/-- C3: for a pyramid-numbers quality at `value = V, xp = 0` with effective
per-level limit `L = pyramid_limit = min(V, configured limit or V)`
(assumed nonnegative, as save levels and configured limits are), one call
of `increase_by(L+1)` yields `value = V+1, xp = 0` (assuming `V+1` does
not exceed the cap), and `increase_by(k)` for `0 ≤ k ≤ L` yields
`value = V, xp = k`. -/
theorem pyramid_increment (q : Quality) (V : Int)
    (hpyr : q.usepyramidnumbers = true)
    (hL : 0 ≤ SQ.pyramid_limit q ⟨V, 0⟩)
    (hcap : q.cap = 0 ∨ V + 1 ≤ q.cap) :
    SQ.increase_by q ⟨V, 0⟩ (SQ.pyramid_limit q ⟨V, 0⟩ + 1) = ⟨V + 1, 0⟩ ∧
    ∀ k : Int, 0 ≤ k → k ≤ SQ.pyramid_limit q ⟨V, 0⟩ →
      SQ.increase_by q ⟨V, 0⟩ k = ⟨V, k⟩ := by
  have hLV : SQ.pyramid_limit q ⟨V, 0⟩ ≤ V := min_le_left _ _
  have hV : 0 ≤ V := le_trans hL hLV
  constructor
  · have htn : (SQ.pyramid_limit q ⟨V, 0⟩ + 1).toNat =
        (SQ.pyramid_limit q ⟨V, 0⟩).toNat + 1 := by omega
    have hcast : ((SQ.pyramid_limit q ⟨V, 0⟩).toNat : Int) =
        SQ.pyramid_limit q ⟨V, 0⟩ := Int.toNat_of_nonneg hL
    rw [SQ.increase_by, hpyr]
    simp only [Bool.not_true, Bool.false_eq_true, if_false, htn]
    rw [pyrIter_succ_comm, pyrIter_below_limit q V _ (le_of_eq hcast), hcast]
    have hlim : SQ.pyramid_limit q ⟨V, SQ.pyramid_limit q ⟨V, 0⟩ + 1⟩ =
        SQ.pyramid_limit q ⟨V, 0⟩ := rfl
    simp only [SQ.pyrStep, hlim]
    rw [if_pos (by omega)]
    have hset : SQ.setValue q ⟨V, SQ.pyramid_limit q ⟨V, 0⟩ + 1⟩ (V + 1) =
        ⟨V + 1, SQ.pyramid_limit q ⟨V, 0⟩ + 1⟩ := by
      simp only [SQ.setValue]
      split_ifs with h1 h2 h3
      · exfalso
        simp only [Bool.and_eq_true, bne_iff_ne, decide_eq_true_eq] at h1
        rcases hcap with hc | hc <;> omega
      · exfalso
        simp only [Bool.and_eq_true, bne_iff_ne, decide_eq_true_eq] at h1
        rcases hcap with hc | hc <;> omega
      · exact absurd h3 (by omega)
      · rfl
    rw [hset]
  · intro k hk0 hkL
    rw [SQ.increase_by, hpyr]
    simp only [Bool.not_true, Bool.false_eq_true, if_false]
    have hcast : ((k.toNat : Nat) : Int) = k := Int.toNat_of_nonneg hk0
    rw [pyrIter_below_limit q V k.toNat (by rw [hcast]; exact hkL), hcast]

/-- C3 (witness): the pyramid quality with no configured limit, at level 3
and XP 0: the limit is 3, so `increase_by(4)` levels up to 4 and
`increase_by(2)` only accumulates 2 XP. -/
theorem pyramid_increment_witness :
    SQ.increase_by exPyrQ ⟨3, 0⟩ 4 = ⟨4, 0⟩ ∧
    SQ.increase_by exPyrQ ⟨3, 0⟩ 2 = ⟨3, 2⟩ := by
  have h := pyramid_increment exPyrQ 3 rfl (by decide) (Or.inl rfl)
  have e : SQ.pyramid_limit exPyrQ ⟨3, 0⟩ = 3 := rfl
  refine ⟨?_, ?_⟩
  · have h1 := h.1
    rw [e] at h1
    norm_num at h1
    exact h1
  · exact h.2 2 (by decide) (by rw [e]; norm_num)

/-- Helper: writing back a present entry makes it readable. -/
theorem saveGet_saveSet_self (id : Nat) (x : SQ) :
    ∀ s : Save, (saveGet s id).isSome → saveGet (saveSet s id x) id = some x
  | [], h => by simp [saveGet, assoc] at h
  | (k, sq) :: tl, h => by
    by_cases hk : (k == id) = true
    · simp [saveGet, assoc, saveSet, List.find?, hk]
    · have h' : (saveGet tl id).isSome := by
        simpa [saveGet, assoc, List.find?, hk] using h
      simpa [saveGet, assoc, saveSet, List.find?, hk]
        using saveGet_saveSet_self id x tl h'

/-- Helper: writing back an entry just appended by `add_quality` makes it
readable. -/
theorem saveGet_saveAdd_set (id : Nat) (x : SQ) :
    ∀ s : Save, saveGet s id = none →
      saveGet (saveSet (saveAdd s id) id x) id = some x
  | [], _ => by simp [saveGet, assoc, saveSet, saveAdd, List.find?]
  | (k, sq) :: tl, h => by
    by_cases hk : (k == id) = true
    · simp [saveGet, assoc, List.find?, hk] at h
    · have h' : saveGet tl id = none := by
        simpa [saveGet, assoc, List.find?, hk] using h
      simpa [saveGet, assoc, saveSet, saveAdd, List.find?, hk]
        using saveGet_saveAdd_set id x tl h'

/-- Helper: overwriting the same entry twice equals overwriting it once. -/
theorem saveSet_saveSet (s : Save) (id : Nat) (x y : SQ) :
    saveSet (saveSet s id x) id y = saveSet s id y := by
  simp only [saveSet, List.map_map]
  refine List.map_congr_left (fun p _ => ?_)
  by_cases hk : (p.1 == id) = true <;> simp [Function.comp, hk]

/-- Helper: for a nonnegative write on a capped quality, the value setter
is exactly a clamp to `min v cap`. -/
theorem setValue_clamped (q : Quality) (sq : SQ) (v : Int)
    (hv : 0 ≤ v) (hc : 0 < q.cap) :
    SQ.setValue q sq v = { sq with level := min v q.cap } := by
  unfold SQ.setValue
  by_cases hvc : q.cap < v
  · have c1 : (q.cap != 0 && decide (v > q.cap)) = true := by
      simp only [Bool.and_eq_true, bne_iff_ne, decide_eq_true_eq]
      exact ⟨by omega, hvc⟩
    simp only [c1]
    simp only [if_true]
    rw [if_neg (by omega : ¬ q.cap < 0)]
    have hm : min v q.cap = q.cap := by omega
    rw [hm]
  · have c1 : (q.cap != 0 && decide (v > q.cap)) = false := by
      simp [hvc]
    simp only [c1]
    simp only [Bool.false_eq_true, if_false]
    rw [if_neg (by omega : ¬ v < 0)]
    have hm : min v q.cap = v := by omega
    rw [hm]

/-- C7 (counterexample): the claim quantifies over every `SetToExactly=v`
value, but a negative `v` is silently dropped by the value setter: with
`v = -1`, cap 5, starting level 3, the resulting value is 3 and not
`min(-1, 5) = -1` (the XP is still reset to 0). -/
theorem set_to_exactly_negative_counterexample :
    Effect.apply ⟨exCapQ, [("SetToExactly", -1)]⟩ [(9, ⟨3, 2⟩)] = [(9, ⟨3, 0⟩)] ∧
    (3 : Int) ≠ min (-1) 5 := by
  decide

/-- C7 (amended): for an Effect whose only operator is `SetToExactly = v`
on a quality with `cap = c > 0`: applying the effect twice yields the same
save as applying it once, for every `v` (negative writes included); the
resulting value is `min(v, c)` when `v ≥ 0` (with the XP reset to 0),
while a negative `v` is silently dropped by the value setter, leaving the
value unchanged (XP still reset to 0). -/
theorem set_to_exactly_idempotent (q : Quality) (v : Int) (save : Save)
    (hc : 0 < q.cap) :
    Effect.apply ⟨q, [("SetToExactly", v)]⟩
        (Effect.apply ⟨q, [("SetToExactly", v)]⟩ save) =
      Effect.apply ⟨q, [("SetToExactly", v)]⟩ save ∧
    (0 ≤ v → saveGet (Effect.apply ⟨q, [("SetToExactly", v)]⟩ save) q.id =
      some ⟨min v q.cap, 0⟩) ∧
    (v < 0 → saveGet (Effect.apply ⟨q, [("SetToExactly", v)]⟩ save) q.id =
      some ⟨((saveGet save q.id).getD SQ.new).level, 0⟩) := by
  have hst : ∀ sq : SQ, SQ.set_to q sq v 0 =
      ⟨if v < 0 then sq.level else min v q.cap, 0⟩ := by
    intro sq
    unfold SQ.set_to SQ.setValue
    by_cases hvc : q.cap < v
    · have c1 : (q.cap != 0 && decide (v > q.cap)) = true := by
        simp only [Bool.and_eq_true, bne_iff_ne, decide_eq_true_eq]
        exact ⟨by omega, hvc⟩
      simp only [c1]
      simp only [if_true]
      rw [if_neg (by omega : ¬ q.cap < 0)]
      rw [if_neg (by omega : ¬ v < 0)]
      have hm : min v q.cap = q.cap := by omega
      rw [hm]
    · have c1 : (q.cap != 0 && decide (v > q.cap)) = false := by
        simp [hvc]
      simp only [c1]
      simp only [Bool.false_eq_true, if_false]
      by_cases hv : v < 0
      · rw [if_pos hv, if_pos hv]
      · rw [if_neg hv, if_neg hv]
        have hm : min v q.cap = v := by omega
        rw [hm]
  have hloop : ∀ sq : SQ,
      Effect.applyLoop q [("SetToExactly", v)] Effect.OPS.reverse sq =
        ⟨if v < 0 then sq.level else min v q.cap, 0⟩ := by
    intro sq
    have hops : Effect.OPS.reverse = ["OnlyIfNoMoreThan", "OnlyIfAtLeast",
        "SetToExactlyAdvanced", "SetToExactly", "ChangeByAdvanced", "Level"] := rfl
    rw [hops]
    simp [Effect.applyLoop, assoc, List.find?, hst sq]
  have happly : ∀ s : Save, Effect.apply ⟨q, [("SetToExactly", v)]⟩ s =
      saveSet (if (saveGet s q.id).isSome then s else saveAdd s q.id) q.id
        ⟨if v < 0 then ((saveGet s q.id).getD SQ.new).level else min v q.cap, 0⟩ := by
    intro s
    simp only [Effect.apply]
    rw [hloop]
  have hget : ∀ s : Save,
      saveGet (Effect.apply ⟨q, [("SetToExactly", v)]⟩ s) q.id =
        some ⟨if v < 0 then ((saveGet s q.id).getD SQ.new).level
              else min v q.cap, 0⟩ := by
    intro s
    rw [happly]
    by_cases hs : (saveGet s q.id).isSome
    · rw [if_pos hs]
      exact saveGet_saveSet_self q.id _ s hs
    · rw [if_neg hs]
      exact saveGet_saveAdd_set q.id _ s (Option.not_isSome_iff_eq_none.mp hs)
  refine ⟨?_, ?_, ?_⟩
  · have hWeq : (⟨if v < 0
        then ((saveGet (Effect.apply ⟨q, [("SetToExactly", v)]⟩ save) q.id).getD
          SQ.new).level
        else min v q.cap, 0⟩ : SQ) =
        ⟨if v < 0 then ((saveGet save q.id).getD SQ.new).level
         else min v q.cap, 0⟩ := by
      by_cases hv : v < 0
      · simp only [if_pos hv, hget save, Option.getD_some]
      · simp only [if_neg hv]
    rw [happly (Effect.apply ⟨q, [("SetToExactly", v)]⟩ save),
        if_pos (by rw [hget save]; rfl), hWeq, happly save]
    exact saveSet_saveSet _ _ _ _
  · intro hv
    rw [hget save, if_neg (by omega : ¬ v < 0)]
  · intro hv
    rw [hget save, if_pos hv]

/-- C7 (witness): the amended theorem at cap 5, starting level 3: with
`v = 7`, applying twice equals applying once and the value is
`min(7, 5) = 5`; with `v = -1`, applying twice also equals applying once
and the negative write is dropped, leaving the level at 3. -/
theorem set_to_exactly_idempotent_witness :
    (Effect.apply ⟨exCapQ, [("SetToExactly", 7)]⟩
        (Effect.apply ⟨exCapQ, [("SetToExactly", 7)]⟩ [(9, ⟨3, 2⟩)]) =
      Effect.apply ⟨exCapQ, [("SetToExactly", 7)]⟩ [(9, ⟨3, 2⟩)] ∧
     saveGet (Effect.apply ⟨exCapQ, [("SetToExactly", 7)]⟩ [(9, ⟨3, 2⟩)]) exCapQ.id =
      some ⟨min 7 exCapQ.cap, 0⟩) ∧
    (Effect.apply ⟨exCapQ, [("SetToExactly", -1)]⟩
        (Effect.apply ⟨exCapQ, [("SetToExactly", -1)]⟩ [(9, ⟨3, 2⟩)]) =
      Effect.apply ⟨exCapQ, [("SetToExactly", -1)]⟩ [(9, ⟨3, 2⟩)] ∧
     saveGet (Effect.apply ⟨exCapQ, [("SetToExactly", -1)]⟩ [(9, ⟨3, 2⟩)]) exCapQ.id =
      some ⟨((saveGet [(9, ⟨3, 2⟩)] exCapQ.id).getD SQ.new).level, 0⟩) :=
  ⟨⟨(set_to_exactly_idempotent exCapQ 7 [(9, ⟨3, 2⟩)] (by decide)).1,
    (set_to_exactly_idempotent exCapQ 7 [(9, ⟨3, 2⟩)] (by decide)).2.1 (by decide)⟩,
   ⟨(set_to_exactly_idempotent exCapQ (-1) [(9, ⟨3, 2⟩)] (by decide)).1,
    (set_to_exactly_idempotent exCapQ (-1) [(9, ⟨3, 2⟩)] (by decide)).2.2 (by decide)⟩⟩

/-- Helper: an operator absent from the dict is skipped by the apply loop. -/
theorem applyLoop_cons_none (q : Quality) (d : List (String × Int))
    (op : String) (rest : List String) (sq : SQ) (h : assoc d op = none) :
    Effect.applyLoop q d (op :: rest) sq = Effect.applyLoop q d rest sq := by
  simp [Effect.applyLoop, h]

/-- Helper: a passing `OnlyIfAtLeast` guard falls through to the rest. -/
theorem applyLoop_cons_atleast (q : Quality) (d : List (String × Int))
    (rest : List String) (sq : SQ) (a : Int)
    (h : assoc d "OnlyIfAtLeast" = some a) (hpass : ¬ sq.level < a) :
    Effect.applyLoop q d ("OnlyIfAtLeast" :: rest) sq =
      Effect.applyLoop q d rest sq := by
  simp [Effect.applyLoop, h, hpass]

/-- Helper: a passing `OnlyIfNoMoreThan` guard falls through to the rest. -/
theorem applyLoop_cons_nomorethan (q : Quality) (d : List (String × Int))
    (rest : List String) (sq : SQ) (b : Int)
    (h : assoc d "OnlyIfNoMoreThan" = some b) (hpass : ¬ sq.level > b) :
    Effect.applyLoop q d ("OnlyIfNoMoreThan" :: rest) sq =
      Effect.applyLoop q d rest sq := by
  simp [Effect.applyLoop, h, hpass]

/-- Helper: a present `SetToExactlyAdvanced` is a logged no-op. -/
theorem applyLoop_cons_setadv (q : Quality) (d : List (String × Int))
    (rest : List String) (sq : SQ) (w : Int)
    (h : assoc d "SetToExactlyAdvanced" = some w) :
    Effect.applyLoop q d ("SetToExactlyAdvanced" :: rest) sq =
      Effect.applyLoop q d rest sq := by
  simp [Effect.applyLoop, h]

/-- Helper: a present `ChangeByAdvanced` is a logged no-op. -/
theorem applyLoop_cons_changeadv (q : Quality) (d : List (String × Int))
    (rest : List String) (sq : SQ) (u : Int)
    (h : assoc d "ChangeByAdvanced" = some u) :
    Effect.applyLoop q d ("ChangeByAdvanced" :: rest) sq =
      Effect.applyLoop q d rest sq := by
  simp [Effect.applyLoop, h]

/-- Helper: a present `SetToExactly` routes through `set_to(value)` with
the default `xp = 0` and continues. -/
theorem applyLoop_cons_setto (q : Quality) (d : List (String × Int))
    (rest : List String) (sq : SQ) (v : Int)
    (h : assoc d "SetToExactly" = some v) :
    Effect.applyLoop q d ("SetToExactly" :: rest) sq =
      Effect.applyLoop q d rest (SQ.set_to q sq v 0) := by
  simp [Effect.applyLoop, h]

/-- C10: applying an Effect carrying `SetToExactly = v` (no `Level`
operator alongside, and every guard condition passing on the current
value) routes through `set_to(value)` with its default `xp = 0`: the
target SaveQuality's XP is wiped to 0 together with the value write, even
for pyramid-numbers qualities. -/
theorem set_to_exactly_resets_xp (e : Effect) (save : Save) (v : Int)
    (hset : assoc e.operator "SetToExactly" = some v)
    (hlevel : assoc e.operator "Level" = none)
    (hA : ∀ a, assoc e.operator "OnlyIfAtLeast" = some a →
        ¬ ((saveGet save e.quality.id).getD SQ.new).level < a)
    (hB : ∀ b, assoc e.operator "OnlyIfNoMoreThan" = some b →
        ¬ ((saveGet save e.quality.id).getD SQ.new).level > b) :
    saveGet (Effect.apply e save) e.quality.id =
      some (SQ.set_to e.quality ((saveGet save e.quality.id).getD SQ.new) v 0) ∧
    (SQ.set_to e.quality ((saveGet save e.quality.id).getD SQ.new) v 0).xp = 0 := by
  have hops : Effect.OPS.reverse = ["OnlyIfNoMoreThan", "OnlyIfAtLeast",
      "SetToExactlyAdvanced", "SetToExactly", "ChangeByAdvanced", "Level"] := rfl
  set sq₀ : SQ := (saveGet save e.quality.id).getD SQ.new with hsq
  have hloop : Effect.applyLoop e.quality e.operator Effect.OPS.reverse sq₀ =
      SQ.set_to e.quality sq₀ v 0 := by
    rw [hops]
    have s1 : Effect.applyLoop e.quality e.operator
        ["OnlyIfNoMoreThan", "OnlyIfAtLeast", "SetToExactlyAdvanced",
         "SetToExactly", "ChangeByAdvanced", "Level"] sq₀ =
        Effect.applyLoop e.quality e.operator
        ["OnlyIfAtLeast", "SetToExactlyAdvanced", "SetToExactly",
         "ChangeByAdvanced", "Level"] sq₀ := by
      rcases hb : assoc e.operator "OnlyIfNoMoreThan" with _ | b
      · exact applyLoop_cons_none _ _ _ _ _ hb
      · exact applyLoop_cons_nomorethan _ _ _ _ b hb (hB b hb)
    have s2 : Effect.applyLoop e.quality e.operator
        ["OnlyIfAtLeast", "SetToExactlyAdvanced", "SetToExactly",
         "ChangeByAdvanced", "Level"] sq₀ =
        Effect.applyLoop e.quality e.operator
        ["SetToExactlyAdvanced", "SetToExactly", "ChangeByAdvanced", "Level"] sq₀ := by
      rcases ha : assoc e.operator "OnlyIfAtLeast" with _ | a
      · exact applyLoop_cons_none _ _ _ _ _ ha
      · exact applyLoop_cons_atleast _ _ _ _ a ha (hA a ha)
    have s3 : Effect.applyLoop e.quality e.operator
        ["SetToExactlyAdvanced", "SetToExactly", "ChangeByAdvanced", "Level"] sq₀ =
        Effect.applyLoop e.quality e.operator
        ["SetToExactly", "ChangeByAdvanced", "Level"] sq₀ := by
      rcases hw : assoc e.operator "SetToExactlyAdvanced" with _ | w
      · exact applyLoop_cons_none _ _ _ _ _ hw
      · exact applyLoop_cons_setadv _ _ _ _ w hw
    have s4 : Effect.applyLoop e.quality e.operator
        ["SetToExactly", "ChangeByAdvanced", "Level"] sq₀ =
        Effect.applyLoop e.quality e.operator
        ["ChangeByAdvanced", "Level"] (SQ.set_to e.quality sq₀ v 0) :=
      applyLoop_cons_setto _ _ _ _ v hset
    have s5 : Effect.applyLoop e.quality e.operator
        ["ChangeByAdvanced", "Level"] (SQ.set_to e.quality sq₀ v 0) =
        Effect.applyLoop e.quality e.operator
        ["Level"] (SQ.set_to e.quality sq₀ v 0) := by
      rcases hu : assoc e.operator "ChangeByAdvanced" with _ | u
      · exact applyLoop_cons_none _ _ _ _ _ hu
      · exact applyLoop_cons_changeadv _ _ _ _ u hu
    have s6 : Effect.applyLoop e.quality e.operator
        ["Level"] (SQ.set_to e.quality sq₀ v 0) = SQ.set_to e.quality sq₀ v 0 := by
      rw [applyLoop_cons_none _ _ _ _ _ hlevel]
      rfl
    rw [s1, s2, s3, s4, s5, s6]
  constructor
  · simp only [Effect.apply]
    rw [← hsq, hloop]
    by_cases hs : (saveGet save e.quality.id).isSome
    · rw [if_pos hs]
      exact saveGet_saveSet_self _ _ _ hs
    · rw [if_neg hs]
      exact saveGet_saveAdd_set _ _ _ (Option.not_isSome_iff_eq_none.mp hs)
  · rfl

/-- C10 (witness): a pyramid quality at level 3 with 2 accumulated XP, an
effect `OnlyIfAtLeast 1, SetToExactly 5`: the guard passes and the write
resets the XP to 0. -/
theorem set_to_exactly_resets_xp_witness :
    saveGet (Effect.apply ⟨exPyrCapQ, [("OnlyIfAtLeast", 1), ("SetToExactly", 5)]⟩
        [(11, ⟨3, 2⟩)]) exPyrCapQ.id =
      some (SQ.set_to exPyrCapQ
        ((saveGet [(11, ⟨3, 2⟩)] exPyrCapQ.id).getD SQ.new) 5 0) ∧
    (SQ.set_to exPyrCapQ
        ((saveGet [(11, ⟨3, 2⟩)] exPyrCapQ.id).getD SQ.new) 5 0).xp = 0 :=
  set_to_exactly_resets_xp ⟨exPyrCapQ, [("OnlyIfAtLeast", 1), ("SetToExactly", 5)]⟩
    [(11, ⟨3, 2⟩)] 5 rfl rfl
    (fun a ha => by
      have : a = 1 := by simpa [assoc, List.find?] using ha.symm
      subst this
      decide)
    (fun b hb => by
      have : (none : Option Int) = some b := by
        simpa [assoc, List.find?] using hb.symm
      exact absurd this (by simp))

/-- C5: in each iteration of `do` whose check result is `DEFAULT` and
whose Default branch has a Rare sibling, one uniform draw from `[0, 100)`
is taken and the Rare outcome replaces the base outcome exactly when the
draw is strictly below the sibling's chance (first conjunct, one
iteration, arbitrary source); with `RareDefault.chance = 50`, a source
always returning 0 selects the Rare branch every iteration, and one always
returning 99 never does (second and third conjuncts, any repeat count). -/
theorem rare_outcome_selection (a : Action) (o rr : Outcome)
    (hchk : ∀ s : Save, Action.check a s = CheckResult.DEFAULT)
    (hdef : assoc a.outdict "DefaultEvent" = some o)
    (hrare : assoc a.outdict "RareDefaultEvent" = some rr)
    (htype : rr.otype = "RareDefaultEvent")
    (hch : rr.chance = 50) :
    (∀ (rng : Nat → Nat) (save : Save),
      (Action.do_ a 1 save rng).map Prod.fst =
        some [if (rng 0 : Int) < rr.chance then CheckResult.RARE
              else CheckResult.DEFAULT]) ∧
    (∀ (n : Nat) (save : Save),
      (Action.do_ a n save (fun _ => 0)).map Prod.fst =
        some (List.replicate n CheckResult.RARE)) ∧
    (∀ (n : Nat) (save : Save),
      (Action.do_ a n save (fun _ => 99)).map Prod.fst =
        some (List.replicate n CheckResult.DEFAULT)) := by
  have hstep : ∀ (n : Nat) (save : Save) (rng : Nat → Nat) (i : Nat),
      Action.doLoop a (n + 1) save rng i =
        if (rng i : Int) < rr.chance then
          (Action.doLoop a n (Outcome.apply rr save) rng (i + 1)).map
            (fun p => (CheckResult.RARE :: p.1, p.2))
        else
          (Action.doLoop a n (Outcome.apply o save) rng (i + 1)).map
            (fun p => (CheckResult.DEFAULT :: p.1, p.2)) := by
    intro n save rng i
    simp only [Action.doLoop]
    rw [hchk save]
    simp only [show (CheckResult.DEFAULT == CheckResult.LOCKED) = false from rfl,
               Bool.false_eq_true, if_false]
    rw [show pyTitle CheckResult.DEFAULT ++ "Event" = "DefaultEvent" from rfl]
    rw [hdef]
    rw [show ("Rare" ++ "DefaultEvent" : String) = "RareDefaultEvent" from rfl]
    rw [hrare]
    simp only [htype]
    by_cases hlt : (rng i : Int) < rr.chance
    · simp only [if_pos hlt]
      rfl
    · simp only [if_neg hlt]
      rfl
  refine ⟨?_, ?_, ?_⟩
  · intro rng save
    rw [Action.do_, hstep 0 save rng 0]
    by_cases hlt : (rng 0 : Int) < rr.chance
    · rw [if_pos hlt, if_pos hlt]
      rfl
    · rw [if_neg hlt, if_neg hlt]
      rfl
  · intro n
    have key : ∀ (m : Nat) (save : Save) (i : Nat),
        (Action.doLoop a m save (fun _ => 0) i).map Prod.fst =
          some (List.replicate m CheckResult.RARE) := by
      intro m
      induction m with
      | zero => intro save i; rfl
      | succ m ih =>
        intro save i
        rw [hstep m save (fun _ => 0) i,
            if_pos (by rw [hch]; norm_num)]
        rw [Option.map_map]
        have hmap : (Action.doLoop a m (Outcome.apply rr save) (fun _ => 0) (i + 1)).map
            (Prod.fst ∘ fun p : List String × Save => (CheckResult.RARE :: p.1, p.2)) =
            ((Action.doLoop a m (Outcome.apply rr save) (fun _ => 0) (i + 1)).map
              Prod.fst).map (fun l => CheckResult.RARE :: l) := by
          rw [Option.map_map]
          rfl
        rw [hmap, ih (Outcome.apply rr save) (i + 1)]
        rfl
    intro save
    exact key n save 0
  · intro n
    have key : ∀ (m : Nat) (save : Save) (i : Nat),
        (Action.doLoop a m save (fun _ => 99) i).map Prod.fst =
          some (List.replicate m CheckResult.DEFAULT) := by
      intro m
      induction m with
      | zero => intro save i; rfl
      | succ m ih =>
        intro save i
        rw [hstep m save (fun _ => 99) i,
            if_neg (by rw [hch]; norm_num)]
        rw [Option.map_map]
        have hmap : (Action.doLoop a m (Outcome.apply o save) (fun _ => 99) (i + 1)).map
            (Prod.fst ∘ fun p : List String × Save => (CheckResult.DEFAULT :: p.1, p.2)) =
            ((Action.doLoop a m (Outcome.apply o save) (fun _ => 99) (i + 1)).map
              Prod.fst).map (fun l => CheckResult.DEFAULT :: l) := by
          rw [Option.map_map]
          rfl
        rw [hmap, ih (Outcome.apply o save) (i + 1)]
        rfl
    intro save
    exact key n save 0

/-- C5 (witness): the requirement-free sample action with a 50%-chance
RareDefault sibling, run twice with a source always returning 0: both
iterations yield the rare label. -/
theorem rare_outcome_selection_witness :
    (Action.do_ exAction 2 [] (fun _ => 0)).map Prod.fst =
      some (List.replicate 2 CheckResult.RARE) :=
  (rare_outcome_selection exAction exDefaultOutcome exRareOutcome
      (fun _ => rfl) rfl rfl rfl rfl).2.1 2 []

theorem assoc_dictPop_self {α : Type} (l : List (String × α)) (k : String) :
    assoc (dictPop l k) k = none := by
  induction l with
  | nil => rfl
  | cons hd tl ih =>
    by_cases hk : (hd.1 == k) = true
    · simp only [dictPop, List.filter, hk, Bool.not_true]
      exact ih
    · rw [show dictPop (hd :: tl) k = hd :: dictPop tl k from by
            simp [dictPop, List.filter, hk]]
      rw [show assoc (hd :: dictPop tl k) k = assoc (dictPop tl k) k from by
            simp [assoc, List.find?, hk]]
      exact ih

theorem assoc_dictPop_ne {α : Type} (l : List (String × α)) (k k' : String)
    (h : (k == k') = false) :
    assoc (dictPop l k') k = assoc l k := by
  induction l with
  | nil => rfl
  | cons hd tl ih =>
    by_cases hk : (hd.1 == k') = true
    · have hne : (hd.1 == k) = false := by
        have h1 : hd.1 = k' := by simpa using hk
        have h2 : ¬ k = k' := by simpa using h
        simp only [h1, beq_eq_false_iff_ne, ne_eq]
        intro hkk
        exact h2 hkk.symm
      simp only [dictPop, List.filter, hk, Bool.not_true]
      rw [show (assoc (hd :: tl) k) = assoc tl k by simp [assoc, List.find?, hne]]
      simpa [dictPop] using ih
    · simp only [dictPop, List.filter, hk, Bool.not_false]
      by_cases hdk : (hd.1 == k) = true
      · simp [assoc, List.find?, hdk]
      · simp only [assoc, List.find?, hdk]
        simpa [dictPop, assoc] using ih

theorem tokStep_fst_not_min (q : Quality) (st : List (String × Int) × List Token)
    (op : String) (hop : pyStartsWith op "Min" = false) :
    (Requirement.tokStep q st op).1 = st.1 := by
  unfold Requirement.tokStep
  dsimp only
  rcases h : assoc st.1 op with _ | v
  · rfl
  · simp only [hop, Bool.false_eq_true, if_false]
    split_ifs <;> rfl

theorem tokStep_fst_or (q : Quality) (st : List (String × Int) × List Token)
    (op : String) :
    (Requirement.tokStep q st op).1 = st.1 ∨
    (Requirement.tokStep q st op).1 = dictPop st.1 ("Max" ++ op.drop 3) := by
  unfold Requirement.tokStep
  dsimp only
  rcases h : assoc st.1 op with _ | v
  · exact Or.inl rfl
  · dsimp only
    by_cases hmin : pyStartsWith op "Min" = true
    · simp only [hmin, if_true]
      rcases h2 : assoc st.1 ("Max" ++ op.drop 3) with _ | w
      · exact Or.inl rfl
      · dsimp only
        by_cases he : (w == v) = true
        · simp only [he, if_true]
          right
          trivial
        · simp only [he, Bool.false_eq_true, if_false]
          right
          trivial
    · simp only [show pyStartsWith op "Min" = false from by simpa using hmin,
                 Bool.false_eq_true, if_false]
      left
      split_ifs <;> rfl

theorem tokStep_snd_shape (q : Quality) (st : List (String × Int) × List Token)
    (op : String) :
    ∃ extra : List Token, (Requirement.tokStep q st op).2 = st.2 ++ extra ∧
      ∀ t ∈ extra, t.op = op := by
  unfold Requirement.tokStep
  dsimp only
  rcases h : assoc st.1 op with _ | v
  · exact ⟨[], by simp, by simp⟩
  · dsimp only
    by_cases hmin : pyStartsWith op "Min" = true
    · simp only [hmin, if_true]
      rcases h2 : assoc st.1 ("Max" ++ op.drop 3) with _ | w
      · exact ⟨[mkTok TokKind.MIN v op TokArgs.unit], rfl, by simp [mkTok]⟩
      · dsimp only
        by_cases he : (w == v) = true
        · simp only [he, if_true]
          exact ⟨[mkTok TokKind.EQUAL v op TokArgs.unit], rfl, by simp [mkTok]⟩
        · simp only [he, Bool.false_eq_true, if_false]
          exact ⟨[mkTok TokKind.RANGE v op (TokArgs.range v w)], rfl, by simp [mkTok]⟩
    · simp only [show pyStartsWith op "Min" = false from by simpa using hmin,
                 Bool.false_eq_true, if_false]
      split_ifs <;>
        first
        | exact ⟨[mkTok TokKind.MAX v op TokArgs.unit], rfl, by simp [mkTok]⟩
        | exact ⟨[mkTok TokKind.LUCK (q.challenge_cap v) op TokArgs.unit], rfl,
                 by simp [mkTok]⟩
        | exact ⟨[mkTok TokKind.CHALLENGE (q.challenge_cap v) op TokArgs.unit], rfl,
                 by simp [mkTok]⟩
        | exact ⟨[mkTok TokKind.CHALLENGEADV v op
                    (TokArgs.chadv q.difficultyscaler q.difficulty_factor)], rfl,
                 by simp [mkTok]⟩
        | exact ⟨[mkTok TokKind.INVALID v op (TokArgs.invalid op)], rfl, by simp [mkTok]⟩

theorem tokStep_of_none (q : Quality) (st : List (String × Int) × List Token)
    (op : String) (h : assoc st.1 op = none) :
    Requirement.tokStep q st op = st := by
  unfold Requirement.tokStep
  dsimp only
  rw [h]

theorem tokStep_minlevel_equal (q : Quality) (st : List (String × Int) × List Token)
    (m : Int)
    (hmin : assoc st.1 "MinLevel" = some m) (hmax : assoc st.1 "MaxLevel" = some m) :
    Requirement.tokStep q st "MinLevel" =
      (dictPop st.1 "MaxLevel", st.2 ++ [mkTok TokKind.EQUAL m "MinLevel" TokArgs.unit]) := by
  unfold Requirement.tokStep
  dsimp only
  rw [hmin]
  simp only [show pyStartsWith "MinLevel" "Min" = true from rfl, if_true,
             show ("Max" ++ "MinLevel".drop 3 : String) = "MaxLevel" from rfl]
  rw [hmax]
  simp

/-- C8: for a Requirement carrying both `MinLevel = m` and `MaxLevel = m`,
tokenization collapses the pair into a single `EQUAL` token tagged with
the `MinLevel` operator (popping `MaxLevel` from the working dict), and
emits no `MIN` or `MAX` token for that pair: the only token tagged
`MinLevel` or `MaxLevel` is that `EQUAL` token. -/
theorem tokenize_equal_collapse (r : Requirement) (m : Int)
    (hmin : assoc r.operator "MinLevel" = some m)
    (hmax : assoc r.operator "MaxLevel" = some m) :
    (Requirement.tokenize r).filter
        (fun t => t.op == "MinLevel" || t.op == "MaxLevel") =
      [mkTok TokKind.EQUAL m "MinLevel" TokArgs.unit] := by
  have hfnil : ∀ (ex : List Token) (opname : String),
      (∀ t ∈ ex, t.op = opname) →
      ((opname == "MinLevel") || (opname == "MaxLevel")) = false →
      ex.filter (fun t => t.op == "MinLevel" || t.op == "MaxLevel") = [] := by
    intro ex opname htags hop
    refine List.filter_eq_nil_iff.mpr ?_
    intro t ht
    rw [htags t ht, hop]
    simp
  obtain ⟨q, ops⟩ := r
  dsimp only at hmin hmax
  simp only [Requirement.tokenize, Requirement.OPS, List.foldl]
  obtain ⟨e1, hs1, ht1⟩ := tokStep_snd_shape q (ops, []) "DifficultyLevel"
  have hfst1 : (Requirement.tokStep q (ops, []) "DifficultyLevel").1 = ops :=
    tokStep_fst_not_min q (ops, []) "DifficultyLevel" rfl
  set st1 := Requirement.tokStep q (ops, []) "DifficultyLevel" with hst1d
  obtain ⟨e2, hs2, ht2⟩ := tokStep_snd_shape q st1 "DifficultyAdvanced"
  have hfst2 : (Requirement.tokStep q st1 "DifficultyAdvanced").1 = ops := by
    rw [tokStep_fst_not_min q st1 "DifficultyAdvanced" rfl]
    exact hfst1
  set st2 := Requirement.tokStep q st1 "DifficultyAdvanced" with hst2d
  have hst3eq : Requirement.tokStep q st2 "MinLevel" =
      (dictPop st2.1 "MaxLevel",
       st2.2 ++ [mkTok TokKind.EQUAL m "MinLevel" TokArgs.unit]) :=
    tokStep_minlevel_equal q st2 m (by rw [hfst2]; exact hmin)
      (by rw [hfst2]; exact hmax)
  have hfst3 : (Requirement.tokStep q st2 "MinLevel").1 = dictPop ops "MaxLevel" := by
    rw [hst3eq]
    dsimp only
    rw [hfst2]
  have hsnd3 : (Requirement.tokStep q st2 "MinLevel").2 =
      st2.2 ++ [mkTok TokKind.EQUAL m "MinLevel" TokArgs.unit] := by
    rw [hst3eq]
  set st3 := Requirement.tokStep q st2 "MinLevel" with hst3d
  obtain ⟨e4, hs4, ht4⟩ := tokStep_snd_shape q st3 "MinAdvanced"
  have hkey : assoc (Requirement.tokStep q st3 "MinAdvanced").1 "MaxLevel" = none := by
    rcases tokStep_fst_or q st3 "MinAdvanced" with h4 | h4
    · rw [h4, hfst3]
      exact assoc_dictPop_self ops "MaxLevel"
    · rw [h4, show ("Max" ++ "MinAdvanced".drop 3 : String) = "MaxAdvanced" from rfl,
          hfst3]
      rw [assoc_dictPop_ne (dictPop ops "MaxLevel") "MaxLevel" "MaxAdvanced" rfl]
      exact assoc_dictPop_self ops "MaxLevel"
  set st4 := Requirement.tokStep q st3 "MinAdvanced" with hst4d
  rw [tokStep_of_none q st4 "MaxLevel" hkey]
  obtain ⟨e6, hs6, ht6⟩ := tokStep_snd_shape q st4 "MaxAdvanced"
  rw [hs6, hs4, hsnd3, hs2, hs1]
  simp only [List.filter_append, List.nil_append]
  rw [hfnil e1 "DifficultyLevel" ht1 rfl,
      hfnil e2 "DifficultyAdvanced" ht2 rfl,
      hfnil e4 "MinAdvanced" ht4 rfl,
      hfnil e6 "MaxAdvanced" ht6 rfl]
  simp [mkTok]


/-- C8 (witness): `Veils ≥ 5 and ≤ 5` tokenizes to the single token
`EQUAL 5`. -/
theorem tokenize_equal_collapse_witness :
    (Requirement.tokenize ⟨exStd, [("MinLevel", 5), ("MaxLevel", 5)]⟩).filter
        (fun t => t.op == "MinLevel" || t.op == "MaxLevel") =
      [mkTok TokKind.EQUAL 5 "MinLevel" TokArgs.unit] :=
  tokenize_equal_collapse ⟨exStd, [("MinLevel", 5), ("MaxLevel", 5)]⟩ 5 rfl rfl

/-- C9: the reference resolver returns a text with no `_re_adv` matches
unchanged; with the default templates and a registry mapping 42 to the
quality named "Iron", `"[q:42]"` resolves to `"[Iron]"`, and
`"[d:[q:42]]"` resolves the inner marker first and wraps it in the dice
template, yielding `"[1 to [Iron]]"`. -/
theorem parse_adv_resolution :
    (∀ t : List Char, findAdvMatches t = [] →
      parse_adv exReg defaultAdvFormats t.length t = t) ∧
    parse_adv_str exReg defaultAdvFormats "[q:42]" = "[Iron]" ∧
    parse_adv_str exReg defaultAdvFormats "[d:[q:42]]" = "[1 to [Iron]]" := by
  refine ⟨?_, ?_, ?_⟩
  · intro t h
    cases ht : t.length with
    | zero => rfl
    | succ n =>
      simp only [parse_adv]
      rw [h]
      rfl
  · rfl
  · rfl

/-- C9 (witness): a marker-free text is returned unchanged. -/
theorem parse_adv_resolution_witness :
    parse_adv exReg defaultAdvFormats ("no markers here".data.length)
        "no markers here".data = "no markers here".data :=
  parse_adv_resolution.1 "no markers here".data rfl

end SunlessSea
